import Mathlib

/-!
Verification of the exif-fixr repository's core algorithms against its
specification.  Filenames and file contents are modelled as `List Char`;
the filesystem is modelled as a decidable predicate on paths; Python
floats appearing in the GPS encoder are modelled as exact rationals.
Python's integer-literal parser is modelled over the ASCII repertoire,
and the platform-dependent acceptance range of
`datetime.fromtimestamp` is an explicit oracle parameter of the
metadata parser.
-/

set_option maxRecDepth 10000

/-- A filesystem path, split into the containing directory and the file
name, mirroring `pathlib.Path.parent` / `pathlib.Path.name`. -/
structure FPath where
  dir : List Char
  name : List Char
deriving DecidableEq, Repr

/-- Numeric value of a list of ASCII decimal digits (used to model
`int(...)` applied to a regex digit group). -/
def natOfDigits (ds : List Char) : Nat :=
  ds.foldl (fun n c => 10 * n + (c.toNat - 48)) 0

/-- Decimal digits of a natural number (used to model Python string
interpolation of an integer). -/
def digitsOfNat (n : Nat) : List Char :=
  Nat.toDigits 10 n

/-- Model of `os.path.splitext` on a bare file name (no directory
separators): split at the last dot, except that a name consisting of
leading dots only up to that last dot has no extension. -/
def splitext (s : List Char) : List Char × List Char :=
  let extRev := s.reverse.takeWhile (fun c => c ≠ '.')
  if extRev.length = s.length then (s, [])
  else
    let i := s.length - extRev.length - 1
    if (s.take i).any (fun c => c ≠ '.') then (s.take i, s.drop i) else (s, [])

/-- Leftmost occurrence in `s` of a parenthesised digit group, i.e. the
regex `\((\d+)\)` searched with `re.search`: returns the part of `s`
strictly before the match together with the numeric value of the digit
group, or `none` when there is no match. -/
def dupSearch : List Char → Option (List Char × Nat)
  | [] => none
  | c :: rest =>
    if c = '(' then
      let ds := rest.takeWhile Char.isDigit
      if ds ≠ [] ∧ (rest.drop ds.length).head? = some ')' then
        some ([], natOfDigits ds)
      else
        match dupSearch rest with
        | some (p, n) => some (c :: p, n)
        | none => none
    else
      match dupSearch rest with
      | some (p, n) => some (c :: p, n)
      | none => none

/-- Match of the anchored regex `\((\d+)\)$` against `base`, as used by
`normalize_filename`: when `base` ends with a parenthesised digit group,
return `base` without that group together with the numeric value. -/
def dupBefore (base : List Char) : Option (List Char × Nat) :=
  match base.reverse with
  | ')' :: rest =>
    let ds := rest.takeWhile Char.isDigit
    if ds ≠ [] then
      match rest.drop ds.length with
      | '(' :: pre => some (pre.reverse, natOfDigits ds.reverse)
      | _ => none
    else none
  | _ => none

/-- `normalize_filename` from `src/exif_fixr/utils.py`: separate a file
name into base name, extension, and optional duplicate number, looking
for the duplicate counter first at the end of the base, then inside the
extension. -/
def normalize_filename (filename : List Char) : List Char × List Char × Option Nat :=
  let be := splitext filename
  match dupBefore be.1 with
  | some pn => (pn.1, be.2, some pn.2)
  | none =>
    match dupSearch be.2 with
    | some en => (be.1, en.1, some en.2)
    | none => (be.1, be.2, none)

/-- `normalize_filename` from `src/exif_fixr/main.py`, which is a
line-for-line duplicate of the copy in `src/exif_fixr/utils.py`; it is
embedded separately so the two copies can be compared (claim C10). -/
def main_normalize_filename (filename : List Char) : List Char × List Char × Option Nat :=
  let be := splitext filename
  match dupBefore be.1 with
  | some pn => (pn.1, be.2, some pn.2)
  | none =>
    match dupSearch be.2 with
    | some en => (be.1, en.1, some en.2)
    | none => (be.1, be.2, none)

example : normalize_filename ("IMG_4869.HEIC".toList) =
    ("IMG_4869".toList, ".HEIC".toList, none) := by decide

example : normalize_filename ("IMG_4869(1).HEIC".toList) =
    ("IMG_4869".toList, ".HEIC".toList, some 1) := by decide

example : normalize_filename ("IMG_4869.HEIC(1)".toList) =
    ("IMG_4869".toList, ".HEIC".toList, some 1) := by decide

/-- Model of Python `str.replace(old, new)` restricted to a nonempty
`old` pattern: scan left to right, replacing each non-overlapping
occurrence of `oldC :: oldRest` and continuing after the replaced
region.  The `Nat` argument is structural fuel kept at or above the
length of the list being scanned, so the `0, s` case with `s` nonempty
is unreachable. -/
def pyReplaceLoop (oldC : Char) (oldRest new : List Char) : Nat → List Char → List Char
  | _, [] => []
  | 0, s => s
  | Nat.succ fuel, c :: rest =>
    if (oldC :: oldRest).isPrefixOf (c :: rest) then
      new ++ pyReplaceLoop oldC oldRest new fuel (rest.drop oldRest.length)
    else
      c :: pyReplaceLoop oldC oldRest new fuel rest

/-- Model of Python `s.replace(old, new)`.  An empty `old` inserts `new`
at every position, matching CPython's behaviour. -/
def replaceAll (old new s : List Char) : List Char :=
  match old with
  | [] => new ++ (s.map (fun c => c :: new)).flatten
  | c :: cs => pyReplaceLoop c cs new s.length s

/-- The base name used by the resolver: the normalized base with one
trailing literal suffix removed when the base ends with that
edited-file marker (`base[:-7]` in the source). -/
def strippedBaseOf (name : List Char) : List Char :=
  let b := (normalize_filename name).1
  if ("-edited".toList).isSuffixOf b then b.take (b.length - 7) else b

/-- The ordered exact-match candidate list of `find_matching_json` in
`src/exif_fixr/utils.py`: bare base, base plus extension, and — only for
a truthy duplicate number — the counter-after-extension and
counter-before-extension forms, with `None` entries filtered out. -/
def jsonCandidates (name : List Char) : List (List Char) :=
  let ned := normalize_filename name
  let ext := ned.2.1
  let dup := ned.2.2
  let base := strippedBaseOf name
  ([some (base ++ ".json".toList),
    some (base ++ ext ++ ".json".toList),
    match dup with
    | some n => if n ≠ 0 then
        some (base ++ ['.'] ++ ext.drop 1 ++ ['('] ++ digitsOfNat n ++ [')'] ++ ".json".toList)
      else none
    | none => none,
    match dup with
    | some n => if n ≠ 0 then
        some (base ++ ['('] ++ digitsOfNat n ++ [')'] ++ ext ++ ".json".toList)
      else none
    | none => none]).filterMap id

/-- First name in `names` that exists in directory `dir` under the
filesystem `fs`, returned as a full path — the probe loop of
`find_matching_json`. -/
def firstExisting (fs : FPath → Bool) (dir : List Char) : List (List Char) → Option FPath
  | [] => none
  | n :: rest => if fs ⟨dir, n⟩ then some ⟨dir, n⟩ else firstExisting fs dir rest

/-- `find_matching_json` from `src/exif_fixr/utils.py`: probe the exact
candidate patterns in order; on failure retry them with every occurrence
of the base replaced by the base minus its last character
(`pattern.replace(base, base_without_last_digit)`); on failure again,
when the base ends in the two-character variant marker, probe the single
underscore-suffixed name.  The filesystem is passed in as a predicate
modelling `Path.exists`. -/
def find_matching_json (fs : FPath → Bool) (p : FPath) : Option FPath :=
  let base := strippedBaseOf p.name
  let pats := jsonCandidates p.name
  match firstExisting fs p.dir pats with
  | some q => some q
  | none =>
    match firstExisting fs p.dir (pats.map (replaceAll base base.dropLast)) with
    | some q => some q
    | none =>
      if ("_n".toList).isSuffixOf base then
        let q : FPath := ⟨p.dir, base.take (base.length - 2) ++ "_.json".toList⟩
        if fs q then some q else none
      else none

example : jsonCandidates ("IMG_4869.HEIC(1)".toList) =
    ["IMG_4869.json".toList, "IMG_4869.HEIC.json".toList,
     "IMG_4869.HEIC(1).json".toList, "IMG_4869(1).HEIC.json".toList] := by decide

example : strippedBaseOf ("photo-edited.jpg".toList) = "photo".toList := by decide

example :
    find_matching_json (fun q => decide (q = ⟨"d".toList, "IMG_12.jpg.json".toList⟩))
      ⟨"d".toList, "IMG_123.jpg".toList⟩ =
    some ⟨"d".toList, "IMG_12.jpg.json".toList⟩ := by decide

example :
    find_matching_json (fun q => decide (q = ⟨"d".toList, "a.ab.json".toList⟩))
      ⟨"d".toList, "ab.ab".toList⟩ = none := by decide

theorem jsonCandidates_cons (name : List Char) : ∃ rest,
    jsonCandidates name = (strippedBaseOf name ++ ".json".toList) :: rest :=
  ⟨_, rfl⟩

theorem firstExisting_sound {fs : FPath → Bool} {dir : List Char} :
    ∀ {l : List (List Char)} {q : FPath},
      firstExisting fs dir l = some q → q.dir = dir ∧ fs q = true := by
  intro l
  induction l with
  | nil => intro q h; simp [firstExisting] at h
  | cons n rest ih =>
    intro q h
    by_cases hn : fs ⟨dir, n⟩ = true
    · simp only [firstExisting, hn, if_true] at h
      cases h
      exact ⟨rfl, hn⟩
    · simp only [firstExisting, hn, if_false, Bool.false_eq_true] at h
      exact ih h

theorem firstExisting_all_false {fs : FPath → Bool} (hfs : ∀ q, fs q = false)
    (dir : List Char) : ∀ l : List (List Char), firstExisting fs dir l = none := by
  intro l
  induction l with
  | nil => rfl
  | cons n rest ih => simp [firstExisting, hfs ⟨dir, n⟩, ih]

/-- C1: for every media path, the exact-match tier of
`find_matching_json` first strips a trailing edited-marker from the
normalized base (see `strippedBaseOf`), then probes the candidate
sidecar names of `jsonCandidates` — base.json, then base-ext.json, then
(only with a duplicate index) the counter-after-extension and
counter-before-extension forms — in the media file's directory, and
returns the first candidate that exists: any hit in the exact tier is
the resolver's answer, and in particular whenever base.json exists
(e.g. when both base.json and base-ext.json exist) the resolver
returns base.json. -/
theorem find_matching_json_exact_tier (fs : FPath → Bool) (p : FPath) :
    (∀ q, firstExisting fs p.dir (jsonCandidates p.name) = some q →
        find_matching_json fs p = some q) ∧
    (fs ⟨p.dir, strippedBaseOf p.name ++ ".json".toList⟩ = true →
        find_matching_json fs p = some ⟨p.dir, strippedBaseOf p.name ++ ".json".toList⟩) := by
  have main : ∀ q, firstExisting fs p.dir (jsonCandidates p.name) = some q →
      find_matching_json fs p = some q := by
    intro q h
    simp only [find_matching_json, h]
  refine ⟨main, fun h => ?_⟩
  obtain ⟨rest, hr⟩ := jsonCandidates_cons p.name
  refine main _ ?_
  rw [hr]
  simp only [firstExisting]
  rw [h]
  simp

def dirW : List Char := "d".toList

def pC1 : FPath := ⟨dirW, "IMG_4869.HEIC".toList⟩

def fsC1 : FPath → Bool := fun q =>
  decide (q = ⟨dirW, "IMG_4869.json".toList⟩ ∨ q = ⟨dirW, "IMG_4869.HEIC.json".toList⟩)

/-- Witness for C1: with both IMG_4869.json and IMG_4869.HEIC.json on
disk, the resolver returns IMG_4869.json. -/
theorem find_matching_json_exact_tier_witness :
    fsC1 ⟨dirW, "IMG_4869.HEIC.json".toList⟩ = true ∧
    find_matching_json fsC1 pC1 = some ⟨dirW, "IMG_4869.json".toList⟩ := by
  constructor
  · decide
  · have h := (find_matching_json_exact_tier fsC1 pC1).2 (by decide)
    exact h.trans (by decide)

/-- C2 (amended): when the exact tier finds no sidecar, the resolver
retries the same candidate patterns with every occurrence of the base
substring replaced by the base minus its last character (Python
`pattern.replace(base, base[:-1])`), in the same priority order, and
returns the first of those that exists; only if that also fails, and
the base ends with the two-character variant marker, does it test the
single underscore-suffixed fallback name — so the one-character
truncation fallback always precedes that final fallback. -/
theorem find_matching_json_fallback_tiers (fs : FPath → Bool) (p : FPath)
    (h1 : firstExisting fs p.dir (jsonCandidates p.name) = none) :
    (∀ q, firstExisting fs p.dir ((jsonCandidates p.name).map
        (replaceAll (strippedBaseOf p.name) (strippedBaseOf p.name).dropLast)) = some q →
      find_matching_json fs p = some q) ∧
    (firstExisting fs p.dir ((jsonCandidates p.name).map
        (replaceAll (strippedBaseOf p.name) (strippedBaseOf p.name).dropLast)) = none →
      find_matching_json fs p =
        (if ("_n".toList).isSuffixOf (strippedBaseOf p.name) then
          (if fs ⟨p.dir, (strippedBaseOf p.name).take ((strippedBaseOf p.name).length - 2) ++
              "_.json".toList⟩ then
            some ⟨p.dir, (strippedBaseOf p.name).take ((strippedBaseOf p.name).length - 2) ++
              "_.json".toList⟩
          else none)
        else none)) := by
  constructor
  · intro q h2
    simp only [find_matching_json, h1, h2]
  · intro h2
    simp only [find_matching_json, h1, h2]

def pC2 : FPath := ⟨dirW, "ab.ab".toList⟩

def fsC2 : FPath → Bool := fun q => decide (q = ⟨dirW, "a.ab.json".toList⟩)

/-- Counterexample to C2 as stated: for the media file named ab.ab
(base ab, extension .ab, no duplicate index), no exact-tier candidate
exists, and the four patterns rebuilt with the base shortened by one
trailing character (a) would find a.ab.json, which exists — yet the
resolver returns no match, because the code instead replaces every
occurrence of ab inside each pattern (probing a.a.json rather than
a.ab.json). -/
theorem find_matching_json_truncation_cex :
    normalize_filename pC2.name = ("ab".toList, ".ab".toList, none) ∧
    strippedBaseOf pC2.name = "ab".toList ∧
    firstExisting fsC2 pC2.dir (jsonCandidates pC2.name) = none ∧
    firstExisting fsC2 pC2.dir
      [("ab".toList).dropLast ++ ".json".toList,
       ("ab".toList).dropLast ++ ".ab".toList ++ ".json".toList] =
      some ⟨dirW, "a.ab.json".toList⟩ ∧
    find_matching_json fsC2 pC2 = none := by decide

def pC2w : FPath := ⟨dirW, "IMG_123.jpg".toList⟩

def fsC2w : FPath → Bool := fun q => decide (q = ⟨dirW, "IMG_12.jpg.json".toList⟩)

/-- Witness for the amended C2: for IMG_123.jpg with only
IMG_12.jpg.json on disk, the exact tier fails and the truncation tier
returns IMG_12.jpg.json. -/
theorem find_matching_json_fallback_tiers_witness :
    find_matching_json fsC2w pC2w = some ⟨dirW, "IMG_12.jpg.json".toList⟩ := by
  have h := (find_matching_json_fallback_tiers fsC2w pC2w (by decide)).1
    ⟨dirW, "IMG_12.jpg.json".toList⟩ (by decide)
  exact h

/-- C3: the sidecar resolver is total — for every filesystem state it
returns either a path or no match, and when nothing exists on disk it
returns no match after exhausting all tiers (the embedding is a total
function, so no exception is possible). -/
theorem find_matching_json_total (fs : FPath → Bool) (p : FPath) :
    ((∀ q, fs q = false) → find_matching_json fs p = none) ∧
    (find_matching_json fs p = none ∨ ∃ q, find_matching_json fs p = some q) := by
  constructor
  · intro hfs
    simp only [find_matching_json, firstExisting_all_false hfs, hfs]
    split <;> rfl
  · cases h : find_matching_json fs p with
    | none => exact Or.inl rfl
    | some q => exact Or.inr ⟨q, rfl⟩

def pC3 : FPath := ⟨dirW, "IMG_0001.HEIC".toList⟩

/-- Witness for C3: on an empty filesystem the resolver reports no
match for IMG_0001.HEIC. -/
theorem find_matching_json_total_witness :
    find_matching_json (fun _ => false) pC3 = none :=
  (find_matching_json_total (fun _ => false) pC3).1 (fun _ => rfl)

/-- C9: every path the resolver returns lies in the media file's own
directory and passed the existence probe against the filesystem. -/
theorem find_matching_json_sound (fs : FPath → Bool) (p : FPath) (q : FPath)
    (h : find_matching_json fs p = some q) : q.dir = p.dir ∧ fs q = true := by
  simp only [find_matching_json] at h
  split at h
  · next heq => cases h; exact firstExisting_sound heq
  · next =>
    split at h
    · next heq => cases h; exact firstExisting_sound heq
    · next =>
      split at h
      · split at h
        · next hq => cases h; exact ⟨rfl, hq⟩
        · exact absurd h (by simp)
      · exact absurd h (by simp)

def pC9 : FPath := ⟨dirW, "IMG_0001.HEIC".toList⟩

def fsC9 : FPath → Bool := fun q => decide (q = ⟨dirW, "IMG_0001.json".toList⟩)

/-- Witness for C9: a concrete resolved sidecar lies in the media
file's directory and exists on the modelled filesystem. -/
theorem find_matching_json_sound_witness :
    (⟨dirW, "IMG_0001.json".toList⟩ : FPath).dir = pC9.dir ∧
    fsC9 ⟨dirW, "IMG_0001.json".toList⟩ = true :=
  find_matching_json_sound fsC9 pC9 ⟨dirW, "IMG_0001.json".toList⟩ (by decide)

/-- C10: the two in-repository copies of the filename normalizer — in
main.py and in utils.py — are extensionally equal: the source lines are
identical, so the two embeddings agree on every input string. -/
theorem normalize_filename_copies_agree (filename : List Char) :
    main_normalize_filename filename = normalize_filename filename := rfl

/-- A JSON value as produced by Python's json module; JSON null and
Python None are identified, objects are finite association lists with
distinct keys, and numbers are modelled as exact rationals. -/
inductive JValue where
  | null
  | bool (b : Bool)
  | num (q : ℚ)
  | str (s : List Char)
  | arr (elems : List JValue)
  | obj (fields : List (List Char × JValue))

/-- Whether a JSON value is Python None. -/
def JValue.isNull : JValue → Bool
  | .null => true
  | _ => false

/-- The Python exceptions the metadata parser can raise; `rangeError`
stands for the ValueError/OverflowError/OSError family that
`datetime.fromtimestamp` raises on an out-of-range timestamp. -/
inductive PyErr where
  | attributeError
  | typeError
  | valueError
  | rangeError
deriving DecidableEq, Repr

/-- Model of Python `d.get(key, default)` on a JSON object's fields. -/
def assocGetD (fields : List (List Char × JValue)) (k : List Char) (d : JValue) : JValue :=
  match fields.find? (fun kv => kv.1 = k) with
  | some kv => kv.2
  | none => d

/-- Model of attribute access `.get` on a parsed JSON value: only a
dict has it; anything else raises AttributeError. -/
def asDict : JValue → Except PyErr (List (List Char × JValue))
  | .obj fields => .ok fields
  | _ => .error .attributeError

/-- Python truthiness of a parsed JSON value. -/
def pyTruthy : JValue → Bool
  | .null => false
  | .bool b => b
  | .num q => decide (q ≠ 0)
  | .str s => decide (s ≠ [])
  | .arr l => !l.isEmpty
  | .obj l => !l.isEmpty

/-- Model of Python `int(...)` applied to a float, truncating toward
zero. -/
def pyTrunc (q : ℚ) : Int :=
  if 0 ≤ q then ⌊q⌋ else ⌈q⌉

/-- The characters Python `int(str)` strips around the literal,
restricted to the ASCII repertoire this embedding models: TAB through
CR, and the space character (CPython additionally strips some
non-ASCII whitespace such as U+0085 and the Unicode space
separators). -/
def pyIsSpace (c : Char) : Bool :=
  (9 ≤ c.toNat && c.toNat ≤ 13) || c.toNat = 32

/-- Continuation of a digit run as accepted by Python `int(str)`:
underscores are allowed, but each must sit between two digits. -/
def digitsTailOk : List Char → Bool
  | [] => true
  | '_' :: rest =>
    match rest with
    | c :: rest2 => c.isDigit && digitsTailOk rest2
    | [] => false
  | c :: rest => c.isDigit && digitsTailOk rest

/-- A nonempty underscore-grouped run of decimal digits, the digit
part of a base-10 Python integer literal. -/
def intDigitsOk : List Char → Bool
  | [] => false
  | c :: rest => c.isDigit && digitsTailOk rest

/-- Model of Python `int(...)` applied to a string: surrounding
whitespace is stripped, then an optional sign must be directly
followed by a nonempty run of decimal digits in which underscores may
sit between digits; anything else raises ValueError.  Exact for
strings of ASCII characters; CPython additionally accepts non-ASCII
Unicode decimal digits and whitespace, which lie outside the
repertoire this embedding models (see `asciiTimestamp`). -/
def pyIntOfStr (s : List Char) : Except PyErr Int :=
  let t := ((s.dropWhile pyIsSpace).reverse.dropWhile pyIsSpace).reverse
  match t with
  | '+' :: ds =>
    if intDigitsOk ds then
      .ok (Int.ofNat (natOfDigits (ds.filter (fun c => c ≠ '_'))))
    else .error .valueError
  | '-' :: ds =>
    if intDigitsOk ds then
      .ok (-(Int.ofNat (natOfDigits (ds.filter (fun c => c ≠ '_')))))
    else .error .valueError
  | ds =>
    if intDigitsOk ds then
      .ok (Int.ofNat (natOfDigits (ds.filter (fun c => c ≠ '_'))))
    else .error .valueError

/-- Model of Python `int(...)` on an arbitrary parsed JSON value:
strings must parse as integer literals, numbers are truncated toward
zero, booleans become 0 or 1, and anything else raises TypeError. -/
def pyToInt : JValue → Except PyErr Int
  | .str s => pyIntOfStr s
  | .num q => .ok (pyTrunc q)
  | .bool b => .ok (if b then 1 else 0)
  | _ => .error .typeError

/-- The record built by `MediaMetadata.__init__` in
`src/exif_fixr/metadata.py`.  Python None is `JValue.null`; the
formatted time is abstracted to the integer epoch value passed to
`datetime.fromtimestamp` (the datetime formatting itself is external
library code, modelled as total on integers). -/
structure MediaMetadata where
  timestamp : JValue
  formattedEpoch : Option Int
  latitude : JValue
  longitude : JValue
  altitude : JValue
  title : JValue
  description : JValue

/-- `MediaMetadata.__init__` from `src/exif_fixr/metadata.py`:
`photoTakenTime` and `geoData` default to empty dicts when missing and
must be dicts when present; a truthy timestamp is converted with `int`
and the result is passed to `datetime.fromtimestamp`, whose
platform-dependent acceptance range is the oracle `fromtsOk`
(out-of-range values raise); all other fields are stored verbatim. -/
def mkMediaMetadata (fromtsOk : Int → Bool) (j : JValue) :
    Except PyErr MediaMetadata :=
  match asDict j with
  | .error e => .error e
  | .ok top =>
    match asDict (assocGetD top ("photoTakenTime".toList) (.obj [])) with
    | .error e => .error e
    | .ok pt =>
      let timestamp := assocGetD pt ("timestamp".toList) .null
      match (if pyTruthy timestamp then
               (match pyToInt timestamp with
                | .error e => Except.error e
                | .ok n =>
                  if fromtsOk n then Except.ok (some n)
                  else Except.error PyErr.rangeError)
             else (Except.ok none : Except PyErr (Option Int))) with
      | .error e => .error e
      | .ok fmt =>
        match asDict (assocGetD top ("geoData".toList) (.obj [])) with
        | .error e => .error e
        | .ok gd =>
          .ok { timestamp := timestamp
                formattedEpoch := fmt
                latitude := assocGetD gd ("latitude".toList) .null
                longitude := assocGetD gd ("longitude".toList) .null
                altitude := assocGetD gd ("altitude".toList) .null
                title := assocGetD top ("title".toList) .null
                description := assocGetD top ("description".toList) .null }

/-- A concrete instantiation of the datetime-range oracle for the
witnesses and counterexamples below; the payloads involved either
never reach the range check or use a small epoch that every platform
accepts. -/
def ftW : Int → Bool := fun _ => true

def gdC5 : List (List Char × JValue) := [("latitude".toList, .num 1)]

def topC5 : List (List Char × JValue) := [("geoData".toList, .obj gdC5)]

def jC5 : JValue := .obj topC5

def mC5 : MediaMetadata :=
  { timestamp := .null, formattedEpoch := none, latitude := .num 1,
    longitude := .null, altitude := .null, title := .null, description := .null }

/-- Counterexample to C5 as stated: a payload whose geoData supplies
only a latitude parses successfully into a record whose latitude is
present while its longitude is absent — the record itself does not
satisfy the both-present-or-both-absent invariant. -/
theorem mediaMetadata_lone_coordinate_cex :
    mkMediaMetadata ftW jC5 = .ok mC5 ∧
    mC5.latitude.isNull = false ∧ mC5.longitude.isNull = true :=
  ⟨rfl, rfl, rfl⟩

/-- C5 (amended): the parser stores the three geoData fields verbatim
and independently of one another — each is exactly the payload's value
for that key (absent when the key is missing or null); no
both-or-none rule is enforced in the record. -/
theorem mediaMetadata_geo_verbatim (ft : Int → Bool)
    (top gd : List (List Char × JValue)) (m : MediaMetadata)
    (hg : assocGetD top ("geoData".toList) (.obj []) = .obj gd)
    (hm : mkMediaMetadata ft (.obj top) = .ok m) :
    m.latitude = assocGetD gd ("latitude".toList) .null ∧
    m.longitude = assocGetD gd ("longitude".toList) .null ∧
    m.altitude = assocGetD gd ("altitude".toList) .null := by
  simp only [mkMediaMetadata, asDict, hg] at hm
  split at hm
  · simp at hm
  · split at hm
    · simp at hm
    · cases hm
      exact ⟨rfl, rfl, rfl⟩

/-- Witness for the amended C5, instantiated at the lone-latitude
payload. -/
theorem mediaMetadata_geo_verbatim_witness :
    mC5.latitude = assocGetD gdC5 ("latitude".toList) .null ∧
    mC5.longitude = assocGetD gdC5 ("longitude".toList) .null ∧
    mC5.altitude = assocGetD gdC5 ("altitude".toList) .null :=
  mediaMetadata_geo_verbatim ftW topC5 gdC5 mC5 rfl rfl

/-- C4: the filename normalizer satisfies the three reference
equations of the specification: a plain name keeps base and extension
with no duplicate index, and a duplicate counter before or after the
extension is extracted with the same result. -/
theorem normalize_filename_reference_equations :
    normalize_filename ("IMG_4869.HEIC".toList) =
      ("IMG_4869".toList, ".HEIC".toList, none) ∧
    normalize_filename ("IMG_4869(1).HEIC".toList) =
      ("IMG_4869".toList, ".HEIC".toList, some 1) ∧
    normalize_filename ("IMG_4869.HEIC(1)".toList) =
      ("IMG_4869".toList, ".HEIC".toList, some 1) := by
  refine ⟨by decide, by decide, by decide⟩

/-- The EXIF GPS IFD built by `ImageHandler._convert_to_exif_gps` in
`src/exif_fixr/handlers.py`; dictionary keys become record fields
(GPSLatitudeRef, GPSLatitude, GPSLongitudeRef, GPSLongitude, and the
optional GPSAltitudeRef/GPSAltitude pair added only when an altitude is
given). -/
structure GpsIfd where
  latRef : Char
  latitude : (Int × Int) × (Int × Int) × (Int × Int)
  lonRef : Char
  longitude : (Int × Int) × (Int × Int) × (Int × Int)
  altitudeRef : Option Int
  altitude : Option (Int × Int)

/-- `decimal_to_dms` from `ImageHandler._convert_to_exif_gps`: split a
decimal-degree value into whole degrees, whole minutes, and hundredths
of a second, each converted with Python `int` (truncation toward
zero), paired with the denominators 1, 1 and 100. -/
def decimal_to_dms (decimal : ℚ) : (Int × Int) × (Int × Int) × (Int × Int) :=
  let degrees : Int := pyTrunc decimal
  let minutes : Int := pyTrunc ((decimal - degrees) * 60)
  let seconds : Int := pyTrunc (((decimal - degrees) * 60 - minutes) * 60 * 100)
  ((degrees, 1), (minutes, 1), (seconds, 100))

/-- `ImageHandler._convert_to_exif_gps`: reference letters from the
coordinate signs, degree/minute/second triples from the absolute
values, and an optional altitude scaled by 100 with a sign-derived
reference flag.  Python floats are modelled as exact rationals. -/
def convert_to_exif_gps (lat lon : ℚ) (alt : Option ℚ) : GpsIfd :=
  { latRef := if 0 ≤ lat then 'N' else 'S'
    latitude := decimal_to_dms |lat|
    lonRef := if 0 ≤ lon then 'E' else 'W'
    longitude := decimal_to_dms |lon|
    altitudeRef := alt.map (fun a => if 0 ≤ a then 0 else 1)
    altitude := alt.map (fun a => (pyTrunc (|a| * 100), 100)) }

/-- The specification-side description of the DMS triple: floor (which
is truncation for the nonnegative remainders involved) of the degrees,
of the minute remainder scaled by 60, and of the second remainder
scaled to hundredths of a second. -/
def dmsTruncSpec (x : ℚ) : (Int × Int) × (Int × Int) × (Int × Int) :=
  ((⌊x⌋, 1), (⌊(x - ⌊x⌋) * 60⌋, 1),
   (⌊((x - ⌊x⌋) * 60 - ⌊(x - ⌊x⌋) * 60⌋) * 60 * 100⌋, 100))

theorem pyTrunc_of_nonneg {q : ℚ} (h : 0 ≤ q) : pyTrunc q = ⌊q⌋ := if_pos h

theorem decimal_to_dms_eq_spec (x : ℚ) (hx : 0 ≤ x) :
    decimal_to_dms x = dmsTruncSpec x := by
  have hfr : (0 : ℚ) ≤ x - ⌊x⌋ := sub_nonneg.mpr (Int.floor_le x)
  have h2 : (0 : ℚ) ≤ (x - ⌊x⌋) * 60 := mul_nonneg hfr (by norm_num)
  have hfr2 : (0 : ℚ) ≤ (x - ⌊x⌋) * 60 - ⌊(x - ⌊x⌋) * 60⌋ :=
    sub_nonneg.mpr (Int.floor_le _)
  have h3 : (0 : ℚ) ≤ ((x - ⌊x⌋) * 60 - ⌊(x - ⌊x⌋) * 60⌋) * 60 * 100 := by positivity
  simp only [decimal_to_dms, dmsTruncSpec, pyTrunc_of_nonneg hx,
    pyTrunc_of_nonneg h2, pyTrunc_of_nonneg h3]

/-- C7: for every decimal coordinate pair the GPS encoder derives the
reference letters from the signs and produces rational triples with
denominators 1, 1 and 100 whose numerators are the floor (equivalently
the truncation, never the rounding, of the nonnegative remainders) of
the degrees, of the minute remainder scaled by 60, and of the second
remainder scaled to hundredths of a second. -/
theorem convert_to_exif_gps_trunc_and_refs (lat lon : ℚ) (alt : Option ℚ) :
    (convert_to_exif_gps lat lon alt).latRef = (if 0 ≤ lat then 'N' else 'S') ∧
    (convert_to_exif_gps lat lon alt).lonRef = (if 0 ≤ lon then 'E' else 'W') ∧
    (convert_to_exif_gps lat lon alt).latitude = dmsTruncSpec |lat| ∧
    (convert_to_exif_gps lat lon alt).longitude = dmsTruncSpec |lon| :=
  ⟨rfl, rfl, decimal_to_dms_eq_spec _ (abs_nonneg lat),
   decimal_to_dms_eq_spec _ (abs_nonneg lon)⟩

/-- Model of `pathlib` stem/suffix splitting used for the temporary
file name: the suffix is the part from the last dot on, provided that
dot is neither the first nor the last character of the name. -/
def pathStemSuffix (name : List Char) : List Char × List Char :=
  let extRev := name.reverse.takeWhile (fun c => c ≠ '.')
  if extRev.length = name.length then (name, [])
  else
    let i := name.length - extRev.length - 1
    if 0 < i ∧ i < name.length - 1 then (name.take i, name.drop i) else (name, [])

/-- The sibling temporary path used by `VideoHandler.apply_metadata`:
same directory, name equal to stem, the added marker, then the
suffix. -/
def tempPath (p : FPath) : FPath :=
  ⟨p.dir, (pathStemSuffix p.name).1 ++ "_temp".toList ++ (pathStemSuffix p.name).2⟩

theorem pathStemSuffix_append (name : List Char) :
    (pathStemSuffix name).1 ++ (pathStemSuffix name).2 = name := by
  simp only [pathStemSuffix]
  split
  · simp
  · split
    · exact List.take_append_drop _ _
    · simp

theorem tempPath_ne (p : FPath) : tempPath p ≠ p := by
  intro h
  have hlen := congrArg (fun q : FPath => q.name.length) h
  have happ := congrArg List.length (pathStemSuffix_append p.name)
  have h5 : ("_temp".toList).length = 5 := rfl
  simp only [tempPath, List.length_append, h5] at hlen happ
  omega

/-- One invocation of the external video tool, as an oracle: its exit
code, its diagnostic output, and whether (and with what content) it
wrote the temporary output file.  The tool reads the input file and
writes only the temporary path. -/
structure ToolRun where
  exitCode : Int
  stderr : List Char
  wroteTemp : Bool
  tempContent : List Char

/-- What the video writer reports through the logger on a failure
path. -/
inductive VideoLog where
  | ffmpegErr (stderr : List Char)
  | osReplaceErr
deriving DecidableEq, Repr

/-- `VideoHandler.apply_metadata` from `src/exif_fixr/handlers.py`,
over a filesystem mapping paths to contents: succeed immediately on a
dry run or when there are no tags to write; otherwise run the external
tool (which may write the temporary file), and on a nonzero exit raise,
log the diagnostic, and unlink the temporary file if it exists; on a
zero exit atomically replace the original with the temporary file
(whose absence is itself a failure that also removes no original
data). -/
def videoApplyMetadata (tool : ToolRun) (p : FPath) (m : MediaMetadata)
    (dryRun : Bool) (fs : FPath → Option (List Char)) :
    (Bool × Option VideoLog) × (FPath → Option (List Char)) :=
  if dryRun then ((true, none), fs)
  else if !m.formattedEpoch.isSome && !(!m.latitude.isNull && !m.longitude.isNull) then
    ((true, none), fs)
  else
    let temp := tempPath p
    let fs1 : FPath → Option (List Char) :=
      if tool.wroteTemp then (fun q => if q = temp then some tool.tempContent else fs q)
      else fs
    if tool.exitCode ≠ 0 then
      ((false, some (.ffmpegErr tool.stderr)), fun q => if q = temp then none else fs1 q)
    else
      match fs1 temp with
      | some content =>
        ((true, none),
         fun q => if q = temp then none else if q = p then some content else fs1 q)
      | none =>
        ((false, some .osReplaceErr), fun q => if q = temp then none else fs1 q)

/-- C8: whenever the external tool exits nonzero (for a video that has
at least one tag to write, so the tool actually runs), the video writer
reports failure carrying the tool's diagnostic output, the original
file's contents are unchanged, and no temporary file remains on
disk. -/
theorem videoApply_tool_failure (tool : ToolRun) (p : FPath) (m : MediaMetadata)
    (fs : FPath → Option (List Char))
    (hexit : tool.exitCode ≠ 0)
    (hargs : m.formattedEpoch.isSome = true ∨
      (m.latitude.isNull = false ∧ m.longitude.isNull = false)) :
    (videoApplyMetadata tool p m false fs).1 =
      (false, some (VideoLog.ffmpegErr tool.stderr)) ∧
    (videoApplyMetadata tool p m false fs).2 p = fs p ∧
    (videoApplyMetadata tool p m false fs).2 (tempPath p) = none := by
  have hcond : (!m.formattedEpoch.isSome &&
      !(!m.latitude.isNull && !m.longitude.isNull)) = false := by
    rcases hargs with h | ⟨h1, h2⟩
    · simp [h]
    · simp [h1, h2]
  have hne : p ≠ tempPath p := fun h => tempPath_ne p h.symm
  refine ⟨?_, ?_, ?_⟩
  · simp only [videoApplyMetadata, hcond, Bool.false_eq_true, if_false, if_pos hexit]
  · simp only [videoApplyMetadata, hcond, Bool.false_eq_true, if_false, if_pos hexit]
    by_cases hw : tool.wroteTemp = true <;> simp [hw, hne]
  · simp only [videoApplyMetadata, hcond, Bool.false_eq_true, if_false, if_pos hexit]
    simp

def toolW : ToolRun :=
  { exitCode := 1, stderr := "boom".toList, wroteTemp := true,
    tempContent := "partial-output".toList }

def pW8 : FPath := ⟨dirW, "clip.mp4".toList⟩

def mW8 : MediaMetadata :=
  { timestamp := .str ("1700000000".toList), formattedEpoch := some 1700000000,
    latitude := .null, longitude := .null, altitude := .null,
    title := .null, description := .null }

def fsW8 : FPath → Option (List Char) :=
  fun q => if q = pW8 then some ("original-bytes".toList) else none

/-- Witness for C8: a concrete failing tool run on clip.mp4 leaves the
original contents in place, reports the diagnostic, and removes the
temporary file. -/
theorem videoApply_tool_failure_witness :
    (videoApplyMetadata toolW pW8 mW8 false fsW8).1 =
      (false, some (VideoLog.ffmpegErr toolW.stderr)) ∧
    (videoApplyMetadata toolW pW8 mW8 false fsW8).2 pW8 = fsW8 pW8 ∧
    (videoApplyMetadata toolW pW8 mW8 false fsW8).2 (tempPath pW8) = none :=
  videoApply_tool_failure toolW pW8 mW8 fsW8 (by decide) (Or.inl rfl)
